import Mathlib

/-!
# Energizer — formal model of the game-server manager

A shallow embedding of the Energizer manager (Go) in Lean 4, covering:

* the binary codec for the Game Server <-> Manager protocol
  (`internal/protocol/parser.go`, `internal/protocol/packets.go`,
  `internal/protocol/builder.go`);
* the per-instance game state machine and lag tracking
  (`internal/server/state.go`, `internal/server/instance.go`);
* the fleet-wide lag monitor (`internal/server/lag_monitor.go`);
* the connection registry (`internal/network`);
* batched fleet startup (`internal/server/process_linux.go`,
  `Manager.StartAll` / `Manager.waitForBatchReady`).

Go byte slices are modelled as `List Byte` with `Byte := Fin 256`; Go
strings that the codec manipulates byte-wise are also `List Byte`.
Machine integers are `Nat` with explicit `% 2^w` at the points where the
Go code truncates.  Fallible Go functions returning `(T, error)` are
modelled with `Except String` / `Option`.  Wall-clock readings
(`time.Now()`) are passed in explicitly as `Nat` parameters; the Go
monotonic clock of the runtime is reflected by monotonicity hypotheses where
a theorem needs them.
-/

namespace Energizer

/-- A single octet, as read from / written to the wire. -/
abbrev Byte := Fin 256

/-- Truncate a natural number to one octet (Go `byte(n)` / low byte of an
integer being serialised). -/
def mkByte (n : Nat) : Byte := ⟨n % 256, Nat.mod_lt _ (by decide)⟩

namespace Protocol

/-- Go `MaxPacketSize` from `internal/protocol/packets.go`: the maximum
allowed size for a single packet. -/
def maxPacketSize : Nat := 65535

/-- Read an unsigned 8-bit integer (`binary.Read` of a `uint8`);
`none` models the read error on an exhausted reader. -/
def readU8 : List Byte → Option (Nat × List Byte)
  | [] => none
  | b :: rest => some (b.val, rest)

/-- Read a little-endian unsigned 16-bit integer (`binary.Read` of a
`uint16`). -/
def readU16 : List Byte → Option (Nat × List Byte)
  | b0 :: b1 :: rest => some (b0.val + 256 * b1.val, rest)
  | _ => none

/-- Read a little-endian unsigned 32-bit integer (`binary.Read` of a
`uint32`). -/
def readU32 : List Byte → Option (Nat × List Byte)
  | b0 :: b1 :: b2 :: b3 :: rest =>
      some (b0.val + 256 * b1.val + 65536 * b2.val + 16777216 * b3.val, rest)
  | _ => none

/-- Read a little-endian signed 32-bit integer (`binary.Read` of an
`int32`), encoded in two-complement form. -/
def readI32 (s : List Byte) : Option (Int × List Byte) :=
  match readU32 s with
  | none => none
  | some (n, rest) =>
      some (if n < 2147483648 then (n : Int) else (n : Int) - 4294967296, rest)

/-- Read the raw bit pattern of a little-endian IEEE-754 `float32`
(`binary.Read` of a `float32`).  The numeric float semantics are not
modelled; the codec only moves the 4 bytes. -/
def readF32bits : List Byte → Option (Nat × List Byte) := readU32

/-- Serialise a `uint16` little-endian (Go `binary.Write` /
`binary.LittleEndian.PutUint16`). -/
def toLE16 (n : Nat) : List Byte := [mkByte n, mkByte (n / 256)]

/-- Serialise a `uint32` little-endian. -/
def toLE32 (n : Nat) : List Byte :=
  [mkByte n, mkByte (n / 256), mkByte (n / 65536), mkByte (n / 16777216)]

/-- Go `ReadPacket` (`internal/protocol/parser.go`): read one
length-prefixed packet `[2-byte LE length][payload]` from a stream,
returning the raw payload bytes.  Error strings abbreviate the Go
`fmt.Errorf` messages. -/
def readPacket (s : List Byte) : Except String (List Byte) :=
  match readU16 s with
  | none => .error "failed to read packet length"
  | some (length, rest) =>
      if length = 0 then .error "received zero-length packet"
      else if length > maxPacketSize then .error "packet too large"
      else if rest.length < length then .error "failed to read packet payload"
      else .ok (rest.take length)

/-- Go `WritePacket` (`internal/protocol/parser.go`): write a
length-prefixed packet.  The writer is modelled as a byte buffer, so
the only Go error paths (writer failures) do not arise; the function
always produces `uint16(len(data))` little-endian followed by all of
`data`. -/
def writePacket (data : List Byte) : List Byte :=
  toLE16 data.length ++ data

/-- Go `PacketBuilder.BuildWithLength` (`internal/protocol/builder.go`):
prepend a 2-byte LE length prefix (`binary.LittleEndian.PutUint16` of
`uint16(len(data))`) to the buffered bytes. -/
def buildWithLength (data : List Byte) : List Byte :=
  toLE16 data.length ++ data

/-- Go `readString` (`internal/protocol/parser.go`): read a `[length:1]`
prefixed string, trimming trailing NUL bytes
(`bytes.TrimRight(buf, "\x00")`).  A declared length of 0 yields the
empty string without error. -/
def trimNulRight (l : List Byte) : List Byte :=
  (l.reverse.dropWhile (fun b => b.val = 0)).reverse

/-- Go `readString` proper: returns the decoded bytes and the rest of the
reader, `none` on a short read. -/
def readString (s : List Byte) : Option (List Byte × List Byte) :=
  match s with
  | [] => none
  | len :: rest =>
      if len.val = 0 then some ([], rest)
      else if rest.length < len.val then none
      else some (trimNulRight (rest.take len.val), rest.drop len.val)

/-- Outbound command bytes (`internal/protocol/packets.go`). -/
def pktManagerCommand : Byte := 0x50

/-- Go `PktManagerKick`. -/
def pktManagerKick : Byte := 0x51

/-- Go `PktManagerMessage`. -/
def pktManagerMessage : Byte := 0x52

/-- Go `PacketBuilder.WriteNullString`: the raw string bytes followed by a
NUL terminator. -/
def writeNullString (s : List Byte) : List Byte := s ++ [(0 : Byte)]

/-- Go `BuildManagerCommand` (`internal/protocol/builder.go`):
`[0x50][command:null_str]`. -/
def buildManagerCommand (command : List Byte) : List Byte :=
  pktManagerCommand :: writeNullString command

/-- Go `BuildManagerKick`: `[0x51][player_id:u32][reason:null_str]`. -/
def buildManagerKick (playerID : Nat) (reason : List Byte) : List Byte :=
  pktManagerKick :: (toLE32 playerID ++ writeNullString reason)

/-- Go `BuildManagerMessage`: `[0x52][message:null_str]`. -/
def buildManagerMessage (message : List Byte) : List Byte :=
  pktManagerMessage :: writeNullString message

/-- A structured event decoded by `GameManagerParser.Parse`, mirroring
the `events.Event` payload variants (`internal/events/types.go`).  The
`cpuBits` field carries the raw 4 bytes of the `float32` CPU usage. -/
inductive GMEvent where
  | serverAnnounce (port : Nat)
  | serverClosed (port : Nat)
  | serverStatus (port uptime cpuBits playerCount gamePhase matchID : Nat)
      (playerPings : List (List Byte × Nat))
  | longFrame (port duration : Nat)
  | lobbyCreated (port matchID : Nat) (mapName mode : List Byte)
  | lobbyClosed (port : Nat)
  | playerConnection (port : Nat) (playerName : List Byte) (playerID : Nat)
      (connected : Bool)
  | cowMasterResponse (port : Nat) (success : Bool) (pid : Int)
  | replayStatus (port matchID status : Nat)
  deriving DecidableEq, Repr

/-- Go `parseServerAnnounce` (packet 0x40): `[port:u16]`; trailing bytes
are ignored. -/
def parseServerAnnounce (r : List Byte) : Except String GMEvent :=
  match readU16 r with
  | none => .error "failed to parse server announce"
  | some (port, _) => .ok (.serverAnnounce port)

/-- Go `parseServerClosed` (packet 0x41): `[port:u16]`. -/
def parseServerClosed (r : List Byte) : Except String GMEvent :=
  match readU16 r with
  | none => .error "failed to parse server closed"
  | some (port, _) => .ok (.serverClosed port)

/-- The per-player ping loop of `parseServerStatus`: up to
`playerCount` `(name:len-prefixed-string, ping:u16)` pairs; decoding
stops silently at the first short read (the Go loop `break`s).  The Go
code stores pairs into a map; the model keeps them as an ordered
association list. -/
def parsePings : Nat → List Byte → List (List Byte × Nat)
  | 0, _ => []
  | n + 1, s =>
      match readString s with
      | none => []
      | some (name, rest) =>
          match readU16 rest with
          | none => []
          | some (ping, rest2) => (name, ping) :: parsePings n rest2

/-- Go `parseServerStatus` (packet 0x42):
`[port:u16][uptime:u32][cpu:f32][player_count:u8][game_phase:u8][match_id:u32]`
followed by the per-player ping list. -/
def parseServerStatus (r : List Byte) : Except String GMEvent :=
  match readU16 r with
  | none => .error "failed to parse status port"
  | some (port, r1) =>
  match readU32 r1 with
  | none => .error "failed to parse status uptime"
  | some (uptime, r2) =>
  match readF32bits r2 with
  | none => .error "failed to parse status cpu"
  | some (cpuBits, r3) =>
  match readU8 r3 with
  | none => .error "failed to parse status player count"
  | some (playerCount, r4) =>
  match readU8 r4 with
  | none => .error "failed to parse status game phase"
  | some (gamePhase, r5) =>
  match readU32 r5 with
  | none => .error "failed to parse status match id"
  | some (matchID, r6) =>
      .ok (.serverStatus port uptime cpuBits playerCount gamePhase matchID
        (parsePings playerCount r6))

/-- Go `parseLongFrame` (packet 0x43): `[port:u16][duration_ms:u32]`. -/
def parseLongFrame (r : List Byte) : Except String GMEvent :=
  match readU16 r with
  | none => .error "failed to parse long frame port"
  | some (port, r1) =>
  match readU32 r1 with
  | none => .error "failed to parse long frame duration"
  | some (duration, _) => .ok (.longFrame port duration)

/-- Go `parseLobbyCreated` (packet 0x44):
`[port:u16][match_id:u32][map:str][mode:str]`; string read errors are
ignored (`mapName, _ := readString(r)`), yielding empty strings. -/
def parseLobbyCreated (r : List Byte) : Except String GMEvent :=
  match readU16 r with
  | none => .error "failed to parse lobby port"
  | some (port, r1) =>
  match readU32 r1 with
  | none => .error "failed to parse lobby match id"
  | some (matchID, r2) =>
      let (mapName, r3) := match readString r2 with
        | none => (([] : List Byte), r2)
        | some (s, rest) => (s, rest)
      let mode := match readString r3 with
        | none => ([] : List Byte)
        | some (s, _) => s
      .ok (.lobbyCreated port matchID mapName mode)

/-- Go `parseLobbyClosed` (packet 0x45): `[port:u16]`. -/
def parseLobbyClosed (r : List Byte) : Except String GMEvent :=
  match readU16 r with
  | none => .error "failed to parse lobby closed port"
  | some (port, _) => .ok (.lobbyClosed port)

/-- Go `parsePlayerConnection` (packet 0x47):
`[port:u16][name:str][player_id:u32][connected:u8]`. -/
def parsePlayerConnection (r : List Byte) : Except String GMEvent :=
  match readU16 r with
  | none => .error "failed to parse player connection port"
  | some (port, r1) =>
  match readString r1 with
  | none => .error "failed to parse player name"
  | some (playerName, r2) =>
  match readU32 r2 with
  | none => .error "failed to parse player id"
  | some (playerID, r3) =>
  match readU8 r3 with
  | none => .error "failed to parse connected flag"
  | some (connected, _) =>
      .ok (.playerConnection port playerName playerID (connected = 1))

/-- Go `parseCowMasterResponse` (packet 0x49):
`[port:u16][success:u8][pid:i32]`. -/
def parseCowMasterResponse (r : List Byte) : Except String GMEvent :=
  match readU16 r with
  | none => .error "failed to parse cowmaster port"
  | some (port, r1) =>
  match readU8 r1 with
  | none => .error "failed to parse cowmaster success"
  | some (success, r2) =>
  match readI32 r2 with
  | none => .error "failed to parse cowmaster pid"
  | some (pid, _) => .ok (.cowMasterResponse port (success = 1) pid)

/-- Go `parseReplayStatus` (packet 0x4A):
`[port:u16][match_id:u32][status:u8]`. -/
def parseReplayStatus (r : List Byte) : Except String GMEvent :=
  match readU16 r with
  | none => .error "failed to parse replay port"
  | some (port, r1) =>
  match readU32 r1 with
  | none => .error "failed to parse replay match id"
  | some (matchID, r2) =>
  match readU8 r2 with
  | none => .error "failed to parse replay status"
  | some (status, _) => .ok (.replayStatus port matchID status)

/-- Go `GameManagerParser.Parse` (`internal/protocol/parser.go`): dispatch
on the first byte of the raw packet.  Only the inbound commands
`0x40`-`0x45`, `0x47`, `0x49`, `0x4A` are handled; anything else is an
unknown command. -/
def parse (data : List Byte) : Except String GMEvent :=
  match data with
  | [] => .error "empty packet"
  | cmd :: payload =>
      if cmd.val = 0x40 then parseServerAnnounce payload
      else if cmd.val = 0x41 then parseServerClosed payload
      else if cmd.val = 0x42 then parseServerStatus payload
      else if cmd.val = 0x43 then parseLongFrame payload
      else if cmd.val = 0x44 then parseLobbyCreated payload
      else if cmd.val = 0x45 then parseLobbyClosed payload
      else if cmd.val = 0x47 then parsePlayerConnection payload
      else if cmd.val = 0x49 then parseCowMasterResponse payload
      else if cmd.val = 0x4A then parseReplayStatus payload
      else .error "unknown command"

end Protocol

namespace Server

/-- Go `events.GameStatus` (`internal/events/types.go`). -/
inductive GameStatus where
  | unknown | queued | starting | ready | occupied | sleeping | stopped
  deriving DecidableEq, Repr

/-- Go `events.GamePhase` (`internal/events/types.go`). -/
inductive GamePhase where
  | idle | inLobby | banning | picking | loading | preparation
  | matchStarted | gameEnding | gameEnded
  deriving DecidableEq, Repr

/-- Go `SkippedFrame` (`internal/server/state.go`): one recorded lag
event.  Timestamps are `Nat` clock readings. -/
structure SkippedFrame where
  timestamp : Nat
  duration : Nat
  deriving DecidableEq, Repr

/-- Go `GameState` (`internal/server/state.go`), the pure data part.  The
mutex is dropped (updates are modelled as whole-state functions); the
`*ChangedAt` timestamps are kept as clock readings supplied by the
caller.  `cpuBits` holds the raw bits of the `float32` CPU usage. -/
structure GameState where
  status : GameStatus
  phase : GamePhase
  matchID : Nat
  mapName : List Byte
  gameMode : List Byte
  playerCount : Nat
  uptime : Nat
  cpuBits : Nat
  playerPings : List (List Byte × Nat)
  skippedFrames : List SkippedFrame
  totalLagEvents : Nat
  lastLagTime : Nat
  deriving DecidableEq, Repr

/-- Go `NewGameState`: initial status `queued`, phase `idle`, empty
collections. -/
def newGameState : GameState :=
  { status := .queued, phase := .idle, matchID := 0, mapName := []
    gameMode := [], playerCount := 0, uptime := 0, cpuBits := 0
    playerPings := [], skippedFrames := [], totalLagEvents := 0
    lastLagTime := 0 }

/-- Go `GameState.UpdateTelemetry` (`internal/server/state.go`): store the
telemetry fields, adopt the phase of the frame when it differs, and flip
status `ready -> occupied` when players appear and
`occupied -> ready` when the server empties. -/
def updateTelemetry (s : GameState) (uptime cpuBits playerCount : Nat)
    (phase : GamePhase) (matchID : Nat)
    (pings : List (List Byte × Nat)) : GameState :=
  let s1 := { s with uptime := uptime, cpuBits := cpuBits
                     playerCount := playerCount, matchID := matchID
                     playerPings := pings }
  let s2 := if s1.phase ≠ phase then { s1 with phase := phase } else s1
  if playerCount > 0 ∧ s2.status = .ready then
    { s2 with status := .occupied }
  else if playerCount = 0 ∧ s2.status = .occupied then
    { s2 with status := .ready }
  else s2

/-- Go `GameState.AddLagEvent` (`internal/server/state.go`): append a
`SkippedFrame` stamped with the current clock reading `now`, increment
the running total, and record the time of the last lag event.  Note:
no cap is applied to `skippedFrames` here. -/
def addLagEvent (now duration : Nat) (s : GameState) : GameState :=
  { s with skippedFrames := s.skippedFrames ++ [⟨now, duration⟩]
           totalLagEvents := s.totalLagEvents + 1
           lastLagTime := now }

/-- Go `GameState.ClearLagEvents`: reset the skipped-frame tracker (the
total counter is untouched). -/
def clearLagEvents (s : GameState) : GameState :=
  { s with skippedFrames := [] }

/-- Go `GameState.SetMatchInfo`. -/
def setMatchInfo (matchID : Nat) (mapName mode : List Byte)
    (s : GameState) : GameState :=
  { s with matchID := matchID, mapName := mapName, gameMode := mode }

/-- Side effects an instance handler requests, in order: process
priority changes (the platform shim), the lag warning log line, and
events emitted on the bus. -/
inductive Action where
  | setHighPriority
  | setNormalPriority
  | logWarnLag (count duration : Nat)
  | emitNotifyDiscordAdmin (title message level : String)
  deriving DecidableEq, Repr

/-- Go `LagWarningThreshold` (`internal/server/instance.go`). -/
def lagWarningThreshold : Nat := 10

/-- Go `LagCriticalThreshold` (`internal/server/instance.go`). -/
def lagCriticalThreshold : Nat := 30

/-- Go `Instance.onPhaseTransition` (`internal/server/instance.go`): on
`matchStarted`, request high priority and clear lag data; on
`gameEnded`, request normal priority; on `idle`, clear match info and
lag data; all other targets do nothing. -/
def onPhaseTransition (_oldPhase newPhase : GamePhase) (s : GameState) :
    GameState × List Action :=
  match newPhase with
  | .matchStarted => (clearLagEvents s, [.setHighPriority])
  | .gameEnded => (s, [.setNormalPriority])
  | .idle => (clearLagEvents (setMatchInfo 0 [] [] s), [])
  | _ => (s, [])

/-- The fields of `events.ServerStatusPayload` that
`Instance.HandleStatusUpdate` consumes. -/
structure StatusPayload where
  port : Nat
  uptime : Nat
  cpuBits : Nat
  playerCount : Nat
  gamePhase : GamePhase
  matchID : Nat
  playerPings : List (List Byte × Nat)
  deriving DecidableEq, Repr

/-- Go `Instance.HandleStatusUpdate` (`internal/server/instance.go`):
apply the telemetry, react to a phase transition, then promote a
`starting` server to `ready` on its first status frame. -/
def handleStatusUpdate (s : GameState) (p : StatusPayload) :
    GameState × List Action :=
  let oldPhase := s.phase
  let s1 := updateTelemetry s p.uptime p.cpuBits p.playerCount
    p.gamePhase p.matchID p.playerPings
  let (s2, acts) :=
    if oldPhase ≠ p.gamePhase then onPhaseTransition oldPhase p.gamePhase s1
    else (s1, [])
  if s2.status = .starting then ({ s2 with status := .ready }, acts)
  else (s2, acts)

/-- The Discord notification message built by `Instance.HandleLongFrame`
(`fmt.Sprintf("Server on port %d has experienced %d lag events", ...)`). -/
def lagMessage (port count : Nat) : String :=
  "Server on port " ++ toString port ++ " has experienced "
    ++ toString count ++ " lag events"

/-- Go `Instance.HandleLongFrame` (`internal/server/instance.go`): record
the lag event, log a warning at exactly the warning threshold, and
publish a `notify_discord_admin` event at exactly the critical
threshold. -/
def handleLongFrame (port now : Nat) (s : GameState) (duration : Nat) :
    GameState × List Action :=
  let s1 := addLagEvent now duration s
  let lagEvents := s1.totalLagEvents
  let warn : List Action :=
    if lagEvents = lagWarningThreshold then [.logWarnLag lagEvents duration]
    else []
  let notify : List Action :=
    if lagEvents = lagCriticalThreshold then
      [.emitNotifyDiscordAdmin "Lag Alert" (lagMessage port lagEvents)
        "warning"]
    else []
  (s1, warn ++ notify)

/-- Go `LagEvent` (`internal/server/lag_monitor.go`). -/
structure LagEvent where
  timestamp : Nat
  duration : Nat
  deriving DecidableEq, Repr

/-- Go `PortLagData` (`internal/server/lag_monitor.go`), integer fields.
`AvgDuration` is a derived `float64` and is not modelled (floating
point); `HourlyBuckets` is a total map from hour-of-day to count. -/
structure PortLagData where
  port : Nat
  totalEvents : Nat
  eventsThisHour : Nat
  lastEventTime : Nat
  maxDuration : Nat
  history : List LagEvent
  hourlyBuckets : Nat → Nat

/-- Fresh `PortLagData` for a port first seen by the monitor. -/
def newPortLagData (port : Nat) : PortLagData :=
  { port := port, totalEvents := 0, eventsThisHour := 0, lastEventTime := 0
    maxDuration := 0, history := [], hourlyBuckets := fun _ => 0 }

/-- Go `LagMonitor.handleLagEvent` (`internal/server/lag_monitor.go`), the
per-port update: bump the total, stamp and append the event, update the
max, recount the trailing hour, bump the hour bucket, then trim the
history to its last 1000 entries.  `now` is the `time.Now()` reading in
seconds. -/
def lagMonitorHandle (now duration : Nat) (d : PortLagData) : PortLagData :=
  let hist1 := d.history ++ [⟨now, duration⟩]
  let trimmed := if hist1.length > 1000 then hist1.drop (hist1.length - 1000)
    else hist1
  { d with
      totalEvents := d.totalEvents + 1
      lastEventTime := now
      maxDuration := if duration > d.maxDuration then duration
        else d.maxDuration
      eventsThisHour := (hist1.filter (fun e => now - 3600 < e.timestamp)).length
      hourlyBuckets := fun h => if h = now / 3600 % 24 then
        d.hourlyBuckets h + 1 else d.hourlyBuckets h
      history := trimmed }

end Server

namespace Network

/-- Go `ConnectionRegistry` (`internal/network/connection.go`) together
with the closed flags of the `Connection` objects it has seen.
Connections are identified by tokens (`Nat`); `conns` is the
port-keyed map and `closed c = true` records that `Close()` was called
on connection `c`. -/
structure Registry where
  conns : Nat → Option Nat
  closed : Nat → Bool

/-- Go `NewConnectionRegistry`: the empty registry. -/
def newRegistry : Registry :=
  { conns := fun _ => none, closed := fun _ => false }

/-- Go `ConnectionRegistry.Register`: close any existing connection for
the port, then install the new one. -/
def register (r : Registry) (port conn : Nat) : Registry :=
  let r1 := match r.conns port with
    | some existing =>
        { r with closed := fun c => if c = existing then true
            else r.closed c }
    | none => r
  { r1 with conns := fun p => if p = port then some conn else r1.conns p }

/-- Go `ConnectionRegistry.Unregister`: close and drop the connection for
the port, if any. -/
def unregister (r : Registry) (port : Nat) : Registry :=
  match r.conns port with
  | some conn =>
      { conns := fun p => if p = port then none else r.conns p
        closed := fun c => if c = conn then true else r.closed c }
  | none => r

end Network

namespace Server

/-- Go `NewManager` (`internal/server/process_linux.go`): the capacity of
the startup semaphore, `MaxConcurrentStarts` with a default of 5 when
the configured value is not positive.  `Manager.StartAll` reads it back
as `cap(m.startSemaphore)`. -/
def effectiveMaxConcurrentStarts (cfg : Int) : Nat :=
  if cfg ≤ 0 then 5 else cfg.toNat

/-- The batch partition of `Manager.StartAll`: the loop
`for batchStart := 0; batchStart < totalCount; batchStart += batchSize`
slices `servers[batchStart:batchEnd]`.  The Go loop requires a positive
batch size (guaranteed, since the semaphore capacity is at least 1);
the `n = 0` branch is only a totality guard. -/
def chunks (n : Nat) (l : List α) : List (List α) :=
  match l with
  | [] => []
  | x :: xs =>
      if _hn : n = 0 then [x :: xs]
      else (x :: xs).take n :: chunks n ((x :: xs).drop n)
termination_by l.length
decreasing_by
  simp only [List.length_drop, List.length_cons]
  omega

/-- One round of the `StartAll` batch loop: the ports launched
concurrently in this batch, how many of their `Instance.Start` calls
succeeded, and whether `waitForBatchReady` was invoked before moving
on. -/
structure BatchStep where
  batch : List Nat
  successes : Nat
  waited : Bool
  deriving DecidableEq, Repr

/-- Turn the batch partition into the `StartAll` trace.  `ok p` is the
outcome of `Instance.Start` for the server on port `p` (all starts of a
batch are issued together and joined with a `WaitGroup` before the
batch is accounted).  The rendezvous runs exactly when
`batchEnd < totalCount && batchSuccess > 0`. -/
def mkSteps (ok : Nat → Bool) : List (List Nat) → List BatchStep
  | [] => []
  | b :: rest =>
      { batch := b
        successes := (b.filter ok).length
        waited := decide (rest ≠ []) && decide (0 < (b.filter ok).length) }
        :: mkSteps ok rest

/-- Go `Manager.StartAll` (`internal/server/process_linux.go`) as a trace:
collect the fleet, sort it by port ascending
(`sort.Slice` on `Port()`), partition into batches of the semaphore
capacity, and process the batches in order. -/
def startAllSteps (cfg : Int) (servers : List Nat) (ok : Nat → Bool) :
    List BatchStep :=
  mkSteps ok
    (chunks (effectiveMaxConcurrentStarts cfg)
      (List.insertionSort (· ≤ ·) servers))

/-- The statuses `Manager.waitForBatchReady` counts as done for
startup: `ready`, `occupied`, `sleeping` or `stopped`. -/
def isStartupTerminal : GameStatus → Bool
  | .ready => true
  | .occupied => true
  | .sleeping => true
  | .stopped => true
  | _ => false

/-- The 120-second batch rendezvous deadline passed by `StartAll`. -/
def batchReadyTimeoutSec : Nat := 120

/-- The 3-second ticker of `waitForBatchReady`. -/
def batchPollIntervalSec : Nat := 3

/-- How many ticker polls fit in the deadline. -/
def maxPolls : Nat := batchReadyTimeoutSec / batchPollIntervalSec

/-- Whether every instance of the batch is startup-terminal under the
status snapshot `statuses`. -/
def batchTerminal (statuses : Nat → GameStatus) (batch : List Nat) : Bool :=
  batch.all fun p => isStartupTerminal (statuses p)

/-- The first poll tick (1-based, `fuel` remaining) at which the whole
batch is startup-terminal.  `snap t p` is the status of port `p` read
at the `t`-th ticker firing. -/
def firstReadyTick (snap : Nat → Nat → GameStatus) (batch : List Nat)
    (t : Nat) : Nat → Option Nat
  | 0 => none
  | fuel + 1 =>
      if batchTerminal (snap t) batch then some t
      else firstReadyTick snap batch (t + 1) fuel

/-- Go `Manager.waitForBatchReady` (`internal/server/process_linux.go`):
poll every 3 seconds; return as soon as the batch is fully
startup-terminal, or when the 120-second deadline expires.  The result
is the number of seconds waited.  (Context cancellation, a concurrent
shutdown path, is not modelled.) -/
def waitForBatchReady (snap : Nat → Nat → GameStatus)
    (batch : List Nat) : Nat :=
  match firstReadyTick snap batch 1 maxPolls with
  | some t => batchPollIntervalSec * t
  | none => batchReadyTimeoutSec

end Server

namespace Protocol

/-- A 16-bit little-endian prefix can never exceed `MaxPacketSize`. -/
theorem le16_value_le (b0 b1 : Byte) : b0.val + 256 * b1.val ≤ 65535 := by
  have h0 := b0.isLt
  have h1 := b1.isLt
  omega

/-- Little-endian 16-bit round trip: the two emitted bytes decode to
the value modulo 2^16. -/
theorem toLE16_decode (n : Nat) :
    n % 256 + 256 * (n / 256 % 256) = n % 65536 := by
  have h : (65536 : Nat) = 256 * 256 := by norm_num
  omega

/-- C3: `protocol.ReadPacket` fails on a declared frame length of 0 and
on a short payload read; a declared length of 65535 is accepted with
its full payload returned; on success exactly the declared number of
payload bytes is returned; and the size guard (`length > MaxPacketSize`)
rejects no length representable in the 16-bit prefix, so no nonzero
declared length is refused on size grounds. -/
theorem readPacket_spec :
    (∀ rest : List Byte,
        readPacket ((0 : Byte) :: (0 : Byte) :: rest) =
          .error "received zero-length packet")
  ∧ (∀ (b0 b1 : Byte) (rest : List Byte),
        b0.val + 256 * b1.val ≠ 0 →
        rest.length < b0.val + 256 * b1.val →
        readPacket (b0 :: b1 :: rest) =
          .error "failed to read packet payload")
  ∧ (∀ (b0 b1 : Byte) (rest : List Byte),
        b0.val + 256 * b1.val ≠ 0 →
        b0.val + 256 * b1.val ≤ rest.length →
        readPacket (b0 :: b1 :: rest) =
          .ok (rest.take (b0.val + 256 * b1.val))
        ∧ (rest.take (b0.val + 256 * b1.val)).length =
            b0.val + 256 * b1.val)
  ∧ (∀ payload : List Byte, payload.length = 65535 →
        readPacket ((255 : Byte) :: (255 : Byte) :: payload) = .ok payload)
  ∧ (∀ s : List Byte, readPacket s ≠ .error "packet too large") := by
  have hsize : ∀ (b0 b1 : Byte), ¬ b0.val + 256 * b1.val > maxPacketSize := by
    intro b0 b1
    have := le16_value_le b0 b1
    simp only [maxPacketSize]
    omega
  refine ⟨?_, ?_, ?_, ?_, ?_⟩
  · intro rest
    simp [readPacket, readU16]
  · intro b0 b1 rest hne hshort
    simp only [readPacket, readU16]
    rw [if_neg hne, if_neg (hsize b0 b1), if_pos hshort]
  · intro b0 b1 rest hne hlong
    constructor
    · simp only [readPacket, readU16]
      rw [if_neg hne, if_neg (hsize b0 b1), if_neg (by omega)]
    · exact List.length_take_of_le hlong
  · intro payload hlen
    have h255 : ((255 : Byte)).val + 256 * ((255 : Byte)).val = 65535 := by decide
    simp only [readPacket, readU16, h255]
    rw [if_neg (by omega), if_neg (by simp [maxPacketSize]),
      if_neg (by omega)]
    rw [List.take_of_length_le (by omega)]
  · intro s
    match s with
    | [] => simp [readPacket, readU16]
    | [_] => simp [readPacket, readU16]
    | b0 :: b1 :: rest =>
        simp only [readPacket, readU16]
        split
        · simp
        · split
          · exact absurd (by assumption) (hsize b0 b1)
          · split <;> simp

/-- C3 witness: the theorem applied at concrete frames — a zero-length
frame, a truncated frame, a 2-byte frame, and a maximal 65535-byte
frame. -/
theorem readPacket_spec_witness :
    readPacket ((0 : Byte) :: (0 : Byte) :: []) =
      .error "received zero-length packet"
  ∧ readPacket ((2 : Byte) :: (0 : Byte) :: [(7 : Byte)]) =
      .error "failed to read packet payload"
  ∧ readPacket ((2 : Byte) :: (0 : Byte) :: [(7 : Byte), (9 : Byte)]) =
      .ok [(7 : Byte), (9 : Byte)]
  ∧ readPacket ((255 : Byte) :: (255 : Byte) ::
      List.replicate 65535 (0 : Byte)) =
      .ok (List.replicate 65535 (0 : Byte)) := by
  refine ⟨readPacket_spec.1 [], ?_, ?_, ?_⟩
  · exact readPacket_spec.2.1 2 0 [(7 : Byte)] (by decide) (by decide)
  · have h := (readPacket_spec.2.2.1 2 0 [(7 : Byte), (9 : Byte)]
      (by decide) (by decide)).1
    simpa using h
  · exact readPacket_spec.2.2.2.1 (List.replicate 65535 (0 : Byte))
      (by rw [List.length_replicate])

/-- C9: `WritePacket` and `PacketBuilder.BuildWithLength` always emit
all payload bytes after a 2-byte LE prefix holding
`len(data) mod 2^16`, so for oversized payloads the prefix disagrees
with the actual payload length. -/
theorem writePacket_prefix_truncated :
    (∀ data : List Byte,
        (writePacket data).drop 2 = data
        ∧ readU16 (writePacket data) = some (data.length % 65536, data)
        ∧ buildWithLength data = writePacket data)
  ∧ (∀ data : List Byte, data.length > 65535 →
        data.length % 65536 ≠ data.length) := by
  constructor
  · intro data
    refine ⟨by simp [writePacket, toLE16], ?_, rfl⟩
    simp only [writePacket, toLE16, mkByte, readU16, List.cons_append,
      List.nil_append]
    rw [toLE16_decode]
  · intro data hlen
    omega

/-- C9 witness: a 70000-byte payload gets prefix value
`70000 mod 65536 = 4464`, not 70000, while all 70000 bytes follow. -/
theorem writePacket_prefix_truncated_witness :
    (writePacket (List.replicate 70000 (0 : Byte))).drop 2 =
      List.replicate 70000 (0 : Byte)
  ∧ readU16 (writePacket (List.replicate 70000 (0 : Byte))) =
      some (4464, List.replicate 70000 (0 : Byte))
  ∧ (List.replicate 70000 (0 : Byte)).length % 65536 ≠
      (List.replicate 70000 (0 : Byte)).length := by
  refine ⟨(writePacket_prefix_truncated.1 _).1, ?_, ?_⟩
  · have h := (writePacket_prefix_truncated.1
      (List.replicate 70000 (0 : Byte))).2.1
    simp only [List.length_replicate] at h
    norm_num at h
    exact h
  · exact writePacket_prefix_truncated.2 _
      (by simp only [List.length_replicate]; norm_num)

/-- C10: every length-prefixed string decode strips trailing NUL bytes
inside the declared length, a declared length of 0 yields the empty
string without error, and decoding is therefore not injective on
payloads differing only in trailing NULs. -/
theorem readString_spec :
    (∀ (content rest : List Byte), content.length ≤ 255 →
        readString (mkByte content.length :: (content ++ rest)) =
          some (trimNulRight content, rest))
  ∧ (∀ rest : List Byte, readString ((0 : Byte) :: rest) = some ([], rest))
  ∧ readString [(1 : Byte), (65 : Byte)] =
      readString [(2 : Byte), (65 : Byte), (0 : Byte)]
  ∧ ([(1 : Byte), (65 : Byte)] : List Byte) ≠
      [(2 : Byte), (65 : Byte), (0 : Byte)] := by
  refine ⟨?_, ?_, by decide, by decide⟩
  · intro content rest hle
    have hval : (mkByte content.length).val = content.length := by
      simp only [mkByte]
      omega
    match hc : content with
    | [] => simp [readString, mkByte, trimNulRight]
    | c :: cs =>
        simp only [readString, hval]
        rw [if_neg (by simp), if_neg (by simp)]
        rw [List.take_left, List.drop_left]
  · intro rest
    simp [readString]

/-- C10 witness: the theorem applied at concrete payloads — a name with
a trailing NUL inside its declared length, and a zero-length string. -/
theorem readString_spec_witness :
    readString [(2 : Byte), (65 : Byte), (0 : Byte)] =
      some (trimNulRight [(65 : Byte), (0 : Byte)], [])
  ∧ readString [(0 : Byte)] = some ([], []) := by
  constructor
  · have h := readString_spec.1 [(65 : Byte), (0 : Byte)] [] (by decide)
    simpa using h
  · exact readString_spec.2.1 []

/-- C8 counterexample: the round-trip law fails outright — parsing the
packet built by `BuildManagerCommand` for the command bytes "hi" with
`GameManagerParser.Parse` does not succeed, because `Parse` has no case
for the outbound command byte `0x50`. -/
theorem parse_buildManagerCommand_counterexample :
    parse (buildManagerCommand [(104 : Byte), (105 : Byte)]) =
      .error "unknown command" := rfl

/-- C8 (amended): for every input to the three outbound builders
(command `0x50`, kick `0x51`, in-game message `0x52`), parsing the
built packet with `GameManagerParser.Parse` fails with an
unknown-command error: `Parse` dispatches only on the inbound commands
`0x40`-`0x4A`, so `decode(encode(frame)) == frame` holds for none of
these builders. -/
theorem parse_manager_builders_unknown :
    (∀ command : List Byte,
        parse (buildManagerCommand command) = .error "unknown command")
  ∧ (∀ (playerID : Nat) (reason : List Byte),
        parse (buildManagerKick playerID reason) = .error "unknown command")
  ∧ (∀ message : List Byte,
        parse (buildManagerMessage message) = .error "unknown command") := by
  exact ⟨fun _ => rfl, fun _ _ => rfl, fun _ => rfl⟩

end Protocol

namespace Server

/-- The status field after `UpdateTelemetry`: only the
`ready -> occupied` and `occupied -> ready` player-count rules apply. -/
theorem updateTelemetry_status (s : GameState) (uptime cpuBits pc : Nat)
    (phase : GamePhase) (matchID : Nat) (pings : List (List Byte × Nat)) :
    (updateTelemetry s uptime cpuBits pc phase matchID pings).status =
      if 0 < pc ∧ s.status = .ready then .occupied
      else if pc = 0 ∧ s.status = .occupied then .ready
      else s.status := by
  simp only [updateTelemetry]
  split <;> split <;> (try split) <;> simp_all

/-- Go `onPhaseTransition` never changes the stored status. -/
theorem onPhaseTransition_status (oldPhase newPhase : GamePhase)
    (s : GameState) :
    (onPhaseTransition oldPhase newPhase s).1.status = s.status := by
  cases newPhase <;>
    simp [onPhaseTransition, clearLagEvents, setMatchInfo]

/-- The status after `HandleStatusUpdate` is the telemetry-updated
status, promoted to `ready` when it was `starting`. -/
theorem handleStatusUpdate_status_eq (s : GameState) (p : StatusPayload) :
    (handleStatusUpdate s p).1.status =
      (if (updateTelemetry s p.uptime p.cpuBits p.playerCount p.gamePhase
            p.matchID p.playerPings).status = .starting then .ready
       else (updateTelemetry s p.uptime p.cpuBits p.playerCount p.gamePhase
            p.matchID p.playerPings).status) := by
  simp only [handleStatusUpdate]
  split
  · split
    · next h =>
        simp only [onPhaseTransition_status] at h
        simp [h]
    · next h =>
        simp only [onPhaseTransition_status] at h
        simp [h, onPhaseTransition_status]
  · split
    · next h => simp [h]
    · next h => simp [h]

/-- C2: on a status telemetry frame, `starting` becomes `ready`;
`ready` with players becomes `occupied`; `occupied` with zero players
becomes `ready`; any other stored status — and `ready`/`occupied` when
their rule does not fire — is left unchanged. -/
theorem handleStatusUpdate_status_spec (s : GameState) (p : StatusPayload) :
    (s.status = .starting → (handleStatusUpdate s p).1.status = .ready)
  ∧ (s.status = .ready → 0 < p.playerCount →
      (handleStatusUpdate s p).1.status = .occupied)
  ∧ (s.status = .ready → p.playerCount = 0 →
      (handleStatusUpdate s p).1.status = .ready)
  ∧ (s.status = .occupied → p.playerCount = 0 →
      (handleStatusUpdate s p).1.status = .ready)
  ∧ (s.status = .occupied → 0 < p.playerCount →
      (handleStatusUpdate s p).1.status = .occupied)
  ∧ (s.status ≠ .starting → s.status ≠ .ready → s.status ≠ .occupied →
      (handleStatusUpdate s p).1.status = s.status) := by
  have heq := handleStatusUpdate_status_eq s p
  rw [updateTelemetry_status] at heq
  refine ⟨?_, ?_, ?_, ?_, ?_, ?_⟩
  · intro h1
    rw [heq]
    simp [h1]
  · intro h1 h2
    rw [heq]
    simp [h1, h2]
  · intro h1 h2
    rw [heq]
    simp [h1, h2]
  · intro h1 h2
    rw [heq]
    simp [h1, h2]
  · intro h1 h2
    have h3 : p.playerCount ≠ 0 := by omega
    rw [heq]
    simp [h1, h3]
  · intro h1 h2 h3
    rw [heq]
    simp [h1, h2, h3]

/-- C2 witness: the theorem applied to a concrete starting instance
and a concrete populated-ready instance. -/
theorem handleStatusUpdate_status_spec_witness :
    (handleStatusUpdate { newGameState with status := .starting }
      { port := 10001, uptime := 5, cpuBits := 0, playerCount := 0
        gamePhase := .idle, matchID := 0, playerPings := [] }).1.status =
      .ready
  ∧ (handleStatusUpdate { newGameState with status := .ready }
      { port := 10001, uptime := 5, cpuBits := 0, playerCount := 3
        gamePhase := .inLobby, matchID := 9, playerPings := [] }).1.status =
      .occupied
  ∧ (handleStatusUpdate { newGameState with status := .sleeping }
      { port := 10001, uptime := 5, cpuBits := 0, playerCount := 3
        gamePhase := .inLobby, matchID := 9, playerPings := [] }).1.status =
      .sleeping := by
  refine ⟨?_, ?_, ?_⟩
  · exact (handleStatusUpdate_status_spec _ _).1 rfl
  · exact (handleStatusUpdate_status_spec _ _).2.1 rfl (by decide)
  · exact (handleStatusUpdate_status_spec _ _).2.2.2.2.2
      (by decide) (by decide) (by decide)

/-- An occupied instance mid-lobby with stored match info, used to
exhibit the behaviour of `onPhaseTransition` on `gameEnded`. -/
def lobbyStateExample : GameState :=
  { newGameState with status := .occupied, phase := .inLobby, matchID := 7
                      mapName := [109], gameMode := [120] }

/-- C5 counterexample: a status frame moving an instance from
`in_lobby` to `game_ended` leaves the stored match id at 7 — entering
`game_ended` does not clear the match info, contrary to the claim that
entering `game_ended` or `idle` clears it. -/
theorem onPhaseTransition_gameEnded_counterexample :
    ¬ ((onPhaseTransition GamePhase.inLobby GamePhase.gameEnded
        lobbyStateExample).1.matchID = 0) := by decide

/-- C5 (amended): whenever a status frame changes the phase, entering
`match_started` requests elevated priority and clears the lag history;
entering `game_ended` requests normal priority but leaves the match
info untouched; entering `idle` clears the match info and the lag
history but requests no priority change; every other target phase
changes nothing. -/
theorem onPhaseTransition_spec (oldPhase newPhase : GamePhase)
    (s : GameState) :
    (newPhase = .matchStarted →
        onPhaseTransition oldPhase newPhase s =
          ({ s with skippedFrames := [] }, [.setHighPriority]))
  ∧ (newPhase = .gameEnded →
        onPhaseTransition oldPhase newPhase s = (s, [.setNormalPriority]))
  ∧ (newPhase = .idle →
        onPhaseTransition oldPhase newPhase s =
          ({ s with matchID := 0, mapName := [], gameMode := []
                    skippedFrames := [] }, []))
  ∧ (newPhase ≠ .matchStarted → newPhase ≠ .gameEnded → newPhase ≠ .idle →
        onPhaseTransition oldPhase newPhase s = (s, [])) := by
  refine ⟨?_, ?_, ?_, ?_⟩ <;>
    cases newPhase <;>
      simp [onPhaseTransition, clearLagEvents, setMatchInfo]

/-- C5 witness: the amended theorem applied to the concrete lobby
state, for each of the three distinguished target phases. -/
theorem onPhaseTransition_spec_witness :
    onPhaseTransition GamePhase.inLobby GamePhase.matchStarted
        lobbyStateExample =
      ({ lobbyStateExample with skippedFrames := [] }, [.setHighPriority])
  ∧ onPhaseTransition GamePhase.matchStarted GamePhase.gameEnded
        lobbyStateExample =
      (lobbyStateExample, [.setNormalPriority])
  ∧ onPhaseTransition GamePhase.gameEnded GamePhase.idle
        lobbyStateExample =
      ({ lobbyStateExample with matchID := 0, mapName := [], gameMode := []
                                skippedFrames := [] }, []) :=
  ⟨(onPhaseTransition_spec _ _ _).1 rfl,
   (onPhaseTransition_spec _ _ _).2.1 rfl,
   (onPhaseTransition_spec _ _ _).2.2.1 rfl⟩

/-- Whether an action is a `notify_discord_admin` bus emission. -/
def isNotifyAction : Action → Bool
  | .emitNotifyDiscordAdmin _ _ _ => true
  | _ => false

/-- Go `needle` occurs contiguously inside `hay`. -/
def containsSubstring (hay needle : String) : Prop :=
  List.IsInfix needle.data hay.data

/-- The lag alert message contains both the port and the count. -/
theorem lagMessage_contains (port count : Nat) :
    containsSubstring (lagMessage port count) (toString port)
  ∧ containsSubstring (lagMessage port count) (toString count) := by
  constructor
  · refine ⟨("Server on port ").data,
      (" has experienced " ++ toString count ++ " lag events").data, ?_⟩
    simp only [lagMessage, String.data_append, List.append_assoc]
  · refine ⟨("Server on port " ++ toString port
      ++ " has experienced ").data, (" lag events").data, ?_⟩
    simp only [lagMessage, String.data_append, List.append_assoc]

/-- C7: consuming a `long_frame` bumps the total by one; the warning
log line is produced exactly when the new total equals 10; exactly one
`notify_discord_admin` action, carrying level `"warning"` and a message
containing the port and the count, is emitted exactly when the new
total equals 30; at every other count no notification is emitted. -/
theorem handleLongFrame_thresholds (port now : Nat) (s : GameState)
    (duration : Nat) :
    ((handleLongFrame port now s duration).1.totalLagEvents =
        s.totalLagEvents + 1)
  ∧ ((Action.logWarnLag (s.totalLagEvents + 1) duration ∈
        (handleLongFrame port now s duration).2) ↔ s.totalLagEvents + 1 = 10)
  ∧ ((handleLongFrame port now s duration).2.filter isNotifyAction =
        if s.totalLagEvents + 1 = 30 then
          [.emitNotifyDiscordAdmin "Lag Alert" (lagMessage port 30)
            "warning"]
        else [])
  ∧ containsSubstring (lagMessage port 30) (toString port)
  ∧ containsSubstring (lagMessage port 30) (toString 30) := by
  refine ⟨?_, ?_, ?_, (lagMessage_contains port 30).1,
    (lagMessage_contains port 30).2⟩
  · simp [handleLongFrame, addLagEvent]
  · simp only [handleLongFrame, addLagEvent, lagWarningThreshold,
      lagCriticalThreshold]
    split <;> split <;> simp_all
  · simp only [handleLongFrame, addLagEvent, lagWarningThreshold,
      lagCriticalThreshold]
    split <;> split <;> simp_all [isNotifyAction]

/-- C7 witness: the theorem applied to concrete states at totals 9, 29
and 4 — warning fires only at 10, the single notification only at
30. -/
theorem handleLongFrame_thresholds_witness :
    ((handleLongFrame 10001 50 { newGameState with totalLagEvents := 9 }
        500).2 = [.logWarnLag 10 500])
  ∧ ((handleLongFrame 10001 50 { newGameState with totalLagEvents := 29 }
        500).2.filter isNotifyAction =
      [.emitNotifyDiscordAdmin "Lag Alert" (lagMessage 10001 30) "warning"])
  ∧ ((handleLongFrame 10001 50 { newGameState with totalLagEvents := 4 }
        500).2.filter isNotifyAction = []) := by
  refine ⟨?_, ?_, ?_⟩
  · have h := (handleLongFrame_thresholds 10001 50
      { newGameState with totalLagEvents := 9 } 500).2.1
    have h2 := h.mpr (by decide)
    revert h2
    decide
  · have h := (handleLongFrame_thresholds 10001 50
      { newGameState with totalLagEvents := 29 } 500).2.2.1
    simpa using h
  · have h := (handleLongFrame_thresholds 10001 50
      { newGameState with totalLagEvents := 4 } 500).2.2.1
    simpa using h

/-- Iterating `AddLagEvent` grows the per-instance skipped-frame list
by one entry per event — no cap is applied in `GameState`. -/
theorem addLagEvent_iterate_length (now duration n : Nat) (s : GameState) :
    ((addLagEvent now duration)^[n] s).skippedFrames.length =
      s.skippedFrames.length + n := by
  induction n generalizing s with
  | zero => simp
  | succ n ih =>
      rw [Function.iterate_succ_apply, ih]
      simp [addLagEvent]
      omega

/-- C4 counterexample: after 1001 `long_frame` events consumed from a
fresh instance state, the per-instance skipped-frame history
(`GameState.SkippedFrames`) holds 1001 entries — `AddLagEvent` never
trims, so the claimed 1000-entry cap on the stored history fails. -/
theorem skippedFrames_cap_counterexample :
    ¬ (((addLagEvent 0 0)^[1001] newGameState).skippedFrames.length
        ≤ 1000) := by
  rw [addLagEvent_iterate_length]
  simp [newGameState]

set_option maxRecDepth 4096 in
/-- C4 (amended): for every `long_frame` consumed, both total counters
(`GameState.TotalLagEvents` and the `TotalEvents` of the lag monitor)
increase by exactly 1, and entries appended with a clock reading no
earlier than the existing ones keep both histories
timestamp-monotone; the per-port history of the lag monitor is trimmed to
at most 1000 entries, but the per-instance `GameState` skipped-frame
list is unbounded (it is only cleared on match start / idle). -/
theorem lagEvent_spec (now duration : Nat) (s : GameState)
    (d : PortLagData) :
    ((addLagEvent now duration s).totalLagEvents = s.totalLagEvents + 1)
  ∧ ((lagMonitorHandle now duration d).totalEvents = d.totalEvents + 1)
  ∧ ((lagMonitorHandle now duration d).history.length ≤ 1000)
  ∧ ((addLagEvent now duration s).skippedFrames.length =
        s.skippedFrames.length + 1)
  ∧ (List.Chain' (fun a b => a.timestamp ≤ b.timestamp) s.skippedFrames →
      (∀ e ∈ s.skippedFrames, e.timestamp ≤ now) →
      List.Chain' (fun a b => a.timestamp ≤ b.timestamp)
        (addLagEvent now duration s).skippedFrames)
  ∧ (List.Chain' (fun a b => a.timestamp ≤ b.timestamp) d.history →
      (∀ e ∈ d.history, e.timestamp ≤ now) →
      List.Chain' (fun a b => a.timestamp ≤ b.timestamp)
        (lagMonitorHandle now duration d).history) := by
  have happend : ∀ (α : Type) (f : α → Nat) (l : List α) (x : α),
      List.Chain' (fun a b => f a ≤ f b) l →
      (∀ e ∈ l, f e ≤ f x) →
      List.Chain' (fun a b => f a ≤ f b) (l ++ [x]) := by
    intro α f l x hc hle
    rw [List.chain'_append]
    refine ⟨hc, List.chain'_singleton _, ?_⟩
    intro y hy z hz
    simp only [List.head?_cons, Option.mem_def, Option.some.injEq] at hz
    subst hz
    exact hle y (List.mem_of_mem_getLast? hy)
  refine ⟨rfl, rfl, ?_, by simp [addLagEvent], ?_, ?_⟩
  · simp only [lagMonitorHandle]
    split
    · simp only [List.length_drop]
      omega
    · simp only [List.length_append, List.length_singleton] at *
      omega
  · intro hc hle
    exact happend _ _ _ _ hc hle
  · intro hc hle
    simp only [lagMonitorHandle]
    have hchain : List.Chain' (fun a b => a.timestamp ≤ b.timestamp)
        (d.history ++ [⟨now, duration⟩]) :=
      happend _ LagEvent.timestamp d.history ⟨now, duration⟩ hc hle
    split
    · exact List.Chain'.suffix hchain (List.drop_suffix _ _)
    · exact hchain


/-- C4 witness: the amended theorem applied at a concrete monitor state
holding exactly 1000 entries — the total still advances by one and the
history stays at the 1000-entry cap. -/
theorem lagEvent_spec_witness :
    ((addLagEvent 90 250 newGameState).totalLagEvents = 1)
  ∧ ((lagMonitorHandle 90 250
      { newPortLagData 10001 with
          history := List.replicate 1000 ⟨3, 7⟩
          totalEvents := 1000 }).totalEvents = 1001)
  ∧ ((lagMonitorHandle 90 250
      { newPortLagData 10001 with
          history := List.replicate 1000 ⟨3, 7⟩
          totalEvents := 1000 }).history.length ≤ 1000)
  ∧ List.Chain' (fun a b => a.timestamp ≤ b.timestamp)
      (addLagEvent 90 250 newGameState).skippedFrames := by
  have h := lagEvent_spec 90 250 newGameState
    { newPortLagData 10001 with
        history := List.replicate 1000 (⟨3, 7⟩ : LagEvent)
        totalEvents := 1000 }
  refine ⟨h.1, h.2.1, h.2.2.1, ?_⟩
  exact h.2.2.2.2.1 (by simp [newGameState]) (by simp [newGameState])

end Server

namespace Network

/-- C6: the registry keeps at most one connection per port;
`Register(p, c)` closes any previously registered connection for `p`
before installing `c`; and `Register(p, c)` immediately followed by
`Unregister(p)` leaves no entry for `p`.  Other ports are untouched by
`Register`. -/
theorem registry_spec (r : Registry) (port conn : Nat) :
    ((register r port conn).conns port = some conn)
  ∧ (∀ existing, r.conns port = some existing →
      (register r port conn).closed existing = true)
  ∧ ((unregister (register r port conn) port).conns port = none)
  ∧ (∀ q, q ≠ port → (register r port conn).conns q = r.conns q)
  ∧ (∀ (reg : Registry) (p c1 c2 : Nat),
      reg.conns p = some c1 → reg.conns p = some c2 → c1 = c2) := by
  refine ⟨?_, ?_, ?_, ?_, ?_⟩
  · cases h : r.conns port <;> simp [register, h]
  · intro existing hex
    simp [register, hex]
  · have hreg : (register r port conn).conns port = some conn := by
      cases h : r.conns port <;> simp [register, h]
    simp [unregister, hreg]
  · intro q hq
    cases h : r.conns port <;> simp [register, h, hq]
  · intro reg p c1 c2 h1 h2
    rw [h1] at h2
    exact Option.some.inj h2

/-- C6 witness: the theorem applied to a registry that already holds
connection 10 on port 1 — registering connection 20 closes 10, and an
immediate unregister empties the port. -/
theorem registry_spec_witness :
    ((register (register newRegistry 1 10) 1 20).conns 1 = some 20)
  ∧ ((register (register newRegistry 1 10) 1 20).closed 10 = true)
  ∧ ((unregister (register (register newRegistry 1 10) 1 20) 1).conns 1 =
      none) := by
  have h := registry_spec (register newRegistry 1 10) 1 20
  exact ⟨h.1, h.2.1 10 rfl, h.2.2.1⟩

end Network

namespace Server

/-- The semaphore capacity is always positive. -/
theorem effectiveMaxConcurrentStarts_pos (cfg : Int) :
    0 < effectiveMaxConcurrentStarts cfg := by
  simp only [effectiveMaxConcurrentStarts]
  split
  · omega
  · next h => omega

/-- The batches cover the input exactly, in order. -/
theorem chunks_join (n : Nat) (l : List α) : (chunks n l).flatten = l := by
  match l with
  | [] => simp [chunks]
  | x :: xs =>
      rw [chunks]
      split
      · simp
      · have ih := chunks_join n ((x :: xs).drop n)
        simp only [List.flatten_cons, ih, List.take_append_drop]
termination_by l.length
decreasing_by
  simp only [List.length_drop, List.length_cons]
  omega

/-- Every batch is nonempty and no larger than the batch size. -/
theorem chunks_mem (n : Nat) (hn : n ≠ 0) (l : List α) :
    ∀ b ∈ chunks n l, b ≠ [] ∧ b.length ≤ n := by
  match l with
  | [] => simp [chunks]
  | x :: xs =>
      rw [chunks]
      rw [dif_neg hn]
      intro b hb
      rcases List.mem_cons.mp hb with h | h
      · subst h
        constructor
        · simp only [ne_eq, List.take_eq_nil_iff]
          push_neg
          exact ⟨hn, by simp⟩
        · simp only [List.length_take, List.length_cons]
          omega
      · exact chunks_mem n hn ((x :: xs).drop n) b h
termination_by l.length
decreasing_by
  simp only [List.length_drop, List.length_cons]
  omega

/-- Go `mkSteps` produces one step per batch. -/
theorem mkSteps_length (ok : Nat → Bool) (bs : List (List Nat)) :
    (mkSteps ok bs).length = bs.length := by
  induction bs with
  | nil => rfl
  | cons b rest ih => simp [mkSteps, ih]

/-- The launched batches of the trace are exactly the partition. -/
theorem mkSteps_map_batch (ok : Nat → Bool) (bs : List (List Nat)) :
    (mkSteps ok bs).map BatchStep.batch = bs := by
  induction bs with
  | nil => rfl
  | cons b rest ih => simp [mkSteps, ih]

/-- Every step of the trace records the success count of its batch, and
that batch is one of the batches of the partition. -/
theorem mkSteps_mem (ok : Nat → Bool) (bs : List (List Nat)) :
    ∀ st ∈ mkSteps ok bs,
      st.successes = (st.batch.filter ok).length ∧ st.batch ∈ bs := by
  induction bs with
  | nil => simp [mkSteps]
  | cons b rest ih =>
      intro st hst
      rcases List.mem_cons.mp hst with h | h
      · subst h
        exact ⟨rfl, List.mem_cons_self _ _⟩
      · exact ⟨(ih st h).1, List.mem_cons_of_mem _ (ih st h).2⟩

/-- The rendezvous guard: a step waits exactly when a later batch
exists and the step launched at least one process. -/
theorem mkSteps_waited_iff (ok : Nat → Bool) :
    ∀ (bs : List (List Nat)) (i : Nat) (h : i < (mkSteps ok bs).length),
      (((mkSteps ok bs).get ⟨i, h⟩).waited = true ↔
        (i + 1 < (mkSteps ok bs).length ∧
          0 < ((mkSteps ok bs).get ⟨i, h⟩).successes)) := by
  intro bs
  induction bs with
  | nil => intro i h; simp [mkSteps] at h
  | cons b rest ih =>
      intro i h
      match i with
      | 0 =>
          have hget0 : ((mkSteps ok (b :: rest)).get ⟨0, h⟩) =
              { batch := b, successes := (List.filter ok b).length
                waited := decide (rest ≠ []) &&
                  decide (0 < (List.filter ok b).length) } := rfl
          rw [hget0]
          simp only [mkSteps_length, List.length_cons, Bool.and_eq_true,
            decide_eq_true_eq]
          constructor
          · rintro ⟨h1, h2⟩
            have h3 : 0 < rest.length := List.length_pos.mpr h1
            exact ⟨by omega, h2⟩
          · rintro ⟨h1, h2⟩
            refine ⟨?_, h2⟩
            intro hnil
            subst hnil
            simp at h1
      | i + 1 =>
          have h' : i < (mkSteps ok rest).length := by
            simp only [mkSteps, List.length_cons] at h
            omega
          have hih := ih i h'
          simp only [mkSteps, List.get_cons_succ, List.length_cons] at *
          rw [hih]
          constructor
          · rintro ⟨h1, h2⟩
            exact ⟨by omega, h2⟩
          · rintro ⟨h1, h2⟩
            exact ⟨by omega, h2⟩

/-- A `some` result of the poll loop names a tick, within fuel, at
which the whole batch was startup-terminal. -/
theorem firstReadyTick_some (snap : Nat → Nat → GameStatus)
    (batch : List Nat) :
    ∀ (fuel t0 t : Nat), firstReadyTick snap batch t0 fuel = some t →
      batchTerminal (snap t) batch = true ∧ t0 ≤ t ∧ t < t0 + fuel := by
  intro fuel
  induction fuel with
  | zero => intro t0 t h; simp [firstReadyTick] at h
  | succ fuel ih =>
      intro t0 t h
      rw [firstReadyTick] at h
      split at h
      · cases h
        next hterm => exact ⟨hterm, Nat.le_refl _, by omega⟩
      · have := ih (t0 + 1) t h
        exact ⟨this.1, by omega, by omega⟩

/-- If no polled tick within fuel sees the batch terminal, the loop
exhausts its fuel. -/
theorem firstReadyTick_none (snap : Nat → Nat → GameStatus)
    (batch : List Nat) :
    ∀ (fuel t0 : Nat),
      (∀ t, t0 ≤ t → t < t0 + fuel → batchTerminal (snap t) batch = false) →
      firstReadyTick snap batch t0 fuel = none := by
  intro fuel
  induction fuel with
  | zero => intro t0 _; rfl
  | succ fuel ih =>
      intro t0 hall
      rw [firstReadyTick]
      rw [if_neg]
      · exact ih (t0 + 1) fun t h1 h2 => hall t (by omega) (by omega)
      · simp [hall t0 (Nat.le_refl _) (by omega)]

/-- C1: `StartAll` starts the fleet in ascending port order, in batches
of at most `max_concurrent_starts` (5 when the configured value is not
positive); each batch is launched together and its success count
collected; the rendezvous before the next batch runs exactly when a
later batch exists and at least one launch succeeded; and the
rendezvous polls every 3 seconds, returning as soon as every instance
of the batch is `ready`/`occupied`/`sleeping`/`stopped` and no later
than the 120-second deadline. -/
theorem startAll_spec (cfg : Int) (servers : List Nat) (ok : Nat → Bool) :
    (((startAllSteps cfg servers ok).map BatchStep.batch).flatten =
        List.insertionSort (· ≤ ·) servers)
  ∧ (List.insertionSort (· ≤ ·) servers).Sorted (· ≤ ·)
  ∧ (List.insertionSort (· ≤ ·) servers).Perm servers
  ∧ (∀ st ∈ startAllSteps cfg servers ok,
        st.batch ≠ []
        ∧ st.batch.length ≤ effectiveMaxConcurrentStarts cfg
        ∧ st.successes = (st.batch.filter ok).length)
  ∧ (cfg ≤ 0 → effectiveMaxConcurrentStarts cfg = 5)
  ∧ (0 < cfg → effectiveMaxConcurrentStarts cfg = cfg.toNat)
  ∧ (∀ (i : Nat) (h : i < (startAllSteps cfg servers ok).length),
        (((startAllSteps cfg servers ok).get ⟨i, h⟩).waited = true ↔
          (i + 1 < (startAllSteps cfg servers ok).length ∧
            0 < ((startAllSteps cfg servers ok).get ⟨i, h⟩).successes)))
  ∧ (∀ (snap : Nat → Nat → GameStatus) (batch : List Nat),
        waitForBatchReady snap batch ≤ batchReadyTimeoutSec)
  ∧ (∀ (snap : Nat → Nat → GameStatus) (batch : List Nat) (t : Nat),
        firstReadyTick snap batch 1 maxPolls = some t →
          batchTerminal (snap t) batch = true ∧ 1 ≤ t ∧ t ≤ maxPolls
          ∧ waitForBatchReady snap batch = batchPollIntervalSec * t)
  ∧ (∀ (snap : Nat → Nat → GameStatus) (batch : List Nat),
        (∀ t, 1 ≤ t → t ≤ maxPolls →
          batchTerminal (snap t) batch = false) →
        waitForBatchReady snap batch = batchReadyTimeoutSec) := by
  have hmax := effectiveMaxConcurrentStarts_pos cfg
  refine ⟨?_, ?_, ?_, ?_, ?_, ?_, ?_, ?_, ?_, ?_⟩
  · rw [startAllSteps, mkSteps_map_batch, chunks_join]
  · exact List.sorted_insertionSort _ _
  · exact List.perm_insertionSort _ _
  · intro st hst
    have hm := mkSteps_mem ok _ st hst
    have hc := chunks_mem (effectiveMaxConcurrentStarts cfg)
      (by omega) _ st.batch hm.2
    exact ⟨hc.1, hc.2, hm.1⟩
  · intro h
    simp [effectiveMaxConcurrentStarts, h]
  · intro h
    simp only [effectiveMaxConcurrentStarts]
    rw [if_neg (by omega)]
  · exact fun i h => mkSteps_waited_iff ok _ i h
  · intro snap batch
    rw [waitForBatchReady]
    cases h : firstReadyTick snap batch 1 maxPolls with
    | none => simp
    | some t =>
        have := (firstReadyTick_some snap batch maxPolls 1 t h).2.2
        simp only [batchPollIntervalSec, batchReadyTimeoutSec,
          maxPolls] at *
        omega
  · intro snap batch t h
    have hs := firstReadyTick_some snap batch maxPolls 1 t h
    refine ⟨hs.1, hs.2.1, by omega, ?_⟩
    rw [waitForBatchReady, h]
  · intro snap batch hall
    rw [waitForBatchReady]
    rw [firstReadyTick_none snap batch maxPolls 1
      (fun t h1 h2 => hall t h1 (by omega))]

/-- C1 witness: the theorem applied to seven concrete servers with a
non-positive configured concurrency (so the default batch size 5 is
used) and to a concrete snapshot in which every instance is ready at
the second poll. -/
theorem startAll_spec_witness :
    (((startAllSteps 0 [10007, 10001, 10004, 10002, 10006, 10003, 10005]
        (fun _ => true)).map BatchStep.batch).flatten =
      [10001, 10002, 10003, 10004, 10005, 10006, 10007])
  ∧ effectiveMaxConcurrentStarts 0 = 5
  ∧ waitForBatchReady
      (fun t _ => if 2 ≤ t then GameStatus.ready else GameStatus.starting)
      [10001, 10002] = 6 := by
  have h := startAll_spec 0
    [10007, 10001, 10004, 10002, 10006, 10003, 10005] (fun _ => true)
  refine ⟨?_, h.2.2.2.2.1 (by omega), ?_⟩
  · have h1 := h.1
    rw [h1]
    decide
  · have h2 := h.2.2.2.2.2.2.2.2.1
      (fun t _ => if 2 ≤ t then GameStatus.ready else GameStatus.starting)
      [10001, 10002] 2 (by decide)
    rw [h2.2.2.2]
    decide

end Server

end Energizer
